import Mathlib

/-!
Shallow embedding of `zombiezen.com/go/postgrestest` (package `postgrestest`
and the `postgresamortize` prewarm cache) together with theorems settling the
specification claims.

External effects (filesystem, process spawning, the PostgreSQL tools, the SQL
client, the random source) are modelled explicitly: fallible calls take their
outcome from an environment record, the random source is a function
`Nat → Nat` supplying bytes, and side effects are recorded either in a result
state or in an event trace.
-/

namespace Postgrestest

/-! ## base64 RawURLEncoding (Go `encoding/base64`)

`postgrestest.go` uses `base64.RawURLEncoding` (URL-safe alphabet, no
padding). The encoder processes the input three bytes at a time, emitting
four characters per full group and two or three characters for a trailing
group of one or two bytes. -/

/-- The base64url alphabet used by Go's `base64.RawURLEncoding`
(`encodeURL = "ABC…xyz0123456789-_"`). -/
def base64urlAlphabet : List Char :=
  "ABCDEFGHIJKLMNOPQRSTUVWXYZabcdefghijklmnopqrstuvwxyz0123456789-_".toList

/-- Character of the base64url alphabet at index `i` (indices are always
reduced mod 64 by the encoder). -/
def b64Char (i : Nat) : Char := base64urlAlphabet.getD i 'A'

/-- Go `Encoding.DecodedLen` for a no-padding encoding: `n * 6 / 8`. -/
def decodedLen (n : Nat) : Nat := n * 6 / 8

/-- Go `Encoding.EncodedLen` for a no-padding encoding: `(n*8 + 5) / 6`. -/
def encodedLen (n : Nat) : Nat := (n * 8 + 5) / 6

/-- Go `Encoding.Encode` without padding: full 3-byte groups yield 4
characters; a final group of 2 bytes yields 3 characters and of 1 byte
yields 2 characters. Bytes are naturals taken mod 256 by callers. -/
def encodeGroups : List Nat → List Char
  | b0 :: b1 :: b2 :: rest =>
      let v := b0 * 65536 + b1 * 256 + b2
      b64Char (v / 262144 % 64) :: b64Char (v / 4096 % 64) ::
        b64Char (v / 64 % 64) :: b64Char (v % 64) :: encodeGroups rest
  | [b0, b1] =>
      let v := b0 * 65536 + b1 * 256
      [b64Char (v / 262144 % 64), b64Char (v / 4096 % 64), b64Char (v / 64 % 64)]
  | [b0] =>
      let v := b0 * 65536
      [b64Char (v / 262144 % 64), b64Char (v / 4096 % 64)]
  | [] => []

/-- Go `Encoding.EncodeToString` for `RawURLEncoding`. -/
def encodeToString (bytes : List Nat) : String := ⟨encodeGroups bytes⟩

/-- `randomString(n)` from `postgrestest.go`: fill `DecodedLen(n)` bytes from
`crypto/rand` (modelled by `rng`, reduced mod 256 as Go bytes are) and
base64url-encode them. -/
def randomString (n : Nat) (rng : Nat → Nat) : String :=
  encodeToString ((List.range (decodedLen n)).map fun i => rng i % 256)

theorem b64Char_mem (i : Nat) : b64Char i ∈ base64urlAlphabet := by
  unfold b64Char List.getD
  rw [List.get?_eq_getElem?]
  rcases Nat.lt_or_ge i base64urlAlphabet.length with h | h
  · rw [List.getElem?_eq_getElem h]
    simp [List.getElem_mem h]
  · rw [List.getElem?_eq_none h]
    decide

theorem encodeGroups_mem :
    ∀ (bs : List Nat), ∀ c ∈ encodeGroups bs, c ∈ base64urlAlphabet := by
  intro bs
  induction bs using encodeGroups.induct with
  | case1 b0 b1 b2 rest ih =>
      intro c hc
      simp only [encodeGroups, List.mem_cons] at hc
      rcases hc with h | h | h | h | h
      all_goals first
        | (subst h; exact b64Char_mem _)
        | exact ih c h
  | case2 b0 b1 =>
      intro c hc
      simp only [encodeGroups, List.mem_cons, List.not_mem_nil, or_false] at hc
      rcases hc with h | h | h <;> (subst h; exact b64Char_mem _)
  | case3 b0 =>
      intro c hc
      simp only [encodeGroups, List.mem_cons, List.not_mem_nil, or_false] at hc
      rcases hc with h | h <;> (subst h; exact b64Char_mem _)
  | case4 =>
      intro c hc
      simp [encodeGroups] at hc

theorem encodeGroups_length :
    ∀ (bs : List Nat), (encodeGroups bs).length = encodedLen bs.length := by
  intro bs
  induction bs using encodeGroups.induct with
  | case1 b0 b1 b2 rest ih =>
      simp only [encodeGroups, List.length_cons, ih, encodedLen]
      omega
  | case2 b0 b1 => simp [encodeGroups, encodedLen]
  | case3 b0 => simp [encodeGroups, encodedLen]
  | case4 => simp [encodeGroups, encodedLen]

/-! ## Connection addresses (Go `net/url` as used by `Start` / `dsn`)

`Start` builds `srv.baseURL` as
`(&url.URL{Scheme: "postgres", Host: "localhost:<port>",
User: url.UserPassword(superuserName, superuserPassword), Path: "/"}).String()`
and `dsn(dbName)` returns `srv.baseURL + dbName + "?sslmode=disable"`.
We embed the relevant branches of `net/url.(*URL).String`: userinfo is
escaped in user-password mode, the host in host mode, and the path `"/"`
is emitted verbatim (`/` is never escaped in path mode). -/

/-- Upper-case hexadecimal digit, as used by `net/url.escape`. -/
def upperHexDigit (n : Nat) : Char := "0123456789ABCDEF".toList.getD n '0'

/-- `%XX` escape of a (single-byte) character, as in `net/url.escape`. -/
def percentEscape (c : Char) : List Char :=
  ['%', upperHexDigit (c.toNat / 16 % 16), upperHexDigit (c.toNat % 16)]

/-- Go `net/url.shouldEscape(c, encodeUserPassword)`: alphanumerics and the
marks `- _ . ~` are kept, and of the RFC reserved set
`$ & + , / : ; = ? @` only `@ / ? :` are escaped. Everything else is
escaped. -/
def shouldEscapeUserPassword (c : Char) : Bool :=
  if (97 ≤ c.toNat ∧ c.toNat ≤ 122) ∨ (65 ≤ c.toNat ∧ c.toNat ≤ 90) ∨
      (48 ≤ c.toNat ∧ c.toNat ≤ 57) then false
  else if c = '-' ∨ c = '_' ∨ c = '.' ∨ c = '~' then false
  else if c = '$' ∨ c = '&' ∨ c = '+' ∨ c = ',' ∨ c = ';' ∨ c = '=' then false
  else true

/-- Go `net/url.shouldEscape(c, encodeHost)`: alphanumerics, the listed
host sub-delimiters (including `:`), and the marks are kept; everything
else is escaped. -/
def shouldEscapeHost (c : Char) : Bool :=
  if (97 ≤ c.toNat ∧ c.toNat ≤ 122) ∨ (65 ≤ c.toNat ∧ c.toNat ≤ 90) ∨
      (48 ≤ c.toNat ∧ c.toNat ≤ 57) then false
  else if c ∈ ['!', '$', '&', '\'', '(', ')', '*', '+', ',', ';', '=', ':',
      '[', ']', '<', '>', '"'] then false
  else if c = '-' ∨ c = '_' ∨ c = '.' ∨ c = '~' then false
  else true

/-- `net/url.escape`: percent-escape exactly the characters the mode's
`shouldEscape` flags. -/
def escapeChars (esc : Char → Bool) (cs : List Char) : List Char :=
  cs.flatMap fun c => if esc c then percentEscape c else [c]

def escapeWith (esc : Char → Bool) (s : String) : String :=
  ⟨escapeChars esc s.toList⟩

/-- `srv.baseURL` as computed in `Start` (`url.URL.String` on the URL built
there). -/
def baseURL (password : String) (port : Nat) : String :=
  "postgres" ++ "://" ++
    escapeWith shouldEscapeUserPassword "postgres" ++ ":" ++
    escapeWith shouldEscapeUserPassword password ++ "@" ++
    escapeWith shouldEscapeHost ("localhost:" ++ Nat.repr port) ++ "/"

/-- `(*Server).dsn` from `postgrestest.go`: `srv.baseURL + dbName + "?sslmode=disable"`. -/
def dsn (password : String) (port : Nat) (dbName : String) : String :=
  baseURL password port ++ dbName ++ "?sslmode=disable"

/-- `(*Server).DefaultDatabase`: `srv.dsn("postgres")`. -/
def DefaultDatabase (password : String) (port : Nat) : String :=
  dsn password port "postgres"

theorem escapeChars_id {esc : Char → Bool} :
    ∀ (cs : List Char), (∀ c ∈ cs, esc c = false) → escapeChars esc cs = cs := by
  intro cs h
  induction cs with
  | nil => rfl
  | cons c rest ih =>
      have hc : esc c = false := h c (List.mem_cons_self _ _)
      have hrest := ih fun d hd => h d (List.mem_cons_of_mem _ hd)
      simp [escapeChars, hc] at hrest ⊢
      exact hrest

/-- Decimal digit characters. -/
def decDigits : List Char := "0123456789".toList

theorem digitChar_mem_decDigits (n : Nat) : Nat.digitChar (n % 10) ∈ decDigits := by
  have h : n % 10 < 10 := Nat.mod_lt _ (by norm_num)
  interval_cases h : (n % 10) <;> decide

theorem toDigitsCore_mem (fuel : Nat) :
    ∀ (n : Nat) (ds : List Char), (∀ c ∈ ds, c ∈ decDigits) →
      ∀ c ∈ Nat.toDigitsCore 10 fuel n ds, c ∈ decDigits := by
  induction fuel with
  | zero => intro n ds h c hc; exact h c hc
  | succ fuel ih =>
      intro n ds h c hc
      rw [Nat.toDigitsCore] at hc
      by_cases hz : n / 10 = 0
      · simp only [hz, if_pos rfl] at hc
        rcases List.mem_cons.mp hc with h1 | h1
        · exact h1 ▸ digitChar_mem_decDigits n
        · exact h c h1
      · simp only [if_neg hz] at hc
        refine ih (n / 10) (Nat.digitChar (n % 10) :: ds) ?_ c hc
        intro d hd
        rcases List.mem_cons.mp hd with h1 | h1
        · exact h1 ▸ digitChar_mem_decDigits n
        · exact h d h1

theorem repr_chars_decDigits (n : Nat) : ∀ c ∈ (Nat.repr n).toList, c ∈ decDigits := by
  intro c hc
  have : (Nat.repr n).toList = Nat.toDigitsCore 10 (n + 1) n [] := by
    simp [Nat.repr, Nat.toDigits, List.asString]
  rw [this] at hc
  exact toDigitsCore_mem (n + 1) n [] (by intro d hd; cases hd) c hc

theorem escapeHost_localhost (port : Nat) :
    escapeWith shouldEscapeHost ("localhost:" ++ Nat.repr port) =
      "localhost:" ++ Nat.repr port := by
  have h : ∀ c ∈ ("localhost:" ++ Nat.repr port).toList, shouldEscapeHost c = false := by
    intro c hc
    have hc' : c ∈ ("localhost:").toList ++ (Nat.repr port).toList := by
      simpa [String.toList, String.data_append] using hc
    rcases List.mem_append.mp hc' with h | h
    · fin_cases h <;> decide
    · have := repr_chars_decDigits port c h
      fin_cases this <;> decide
  unfold escapeWith
  rw [escapeChars_id _ h]
  cases ("localhost:" ++ Nat.repr port)
  rfl

theorem escapeUserPassword_alphabet (s : String)
    (h : ∀ c ∈ s.toList, c ∈ base64urlAlphabet) :
    escapeWith shouldEscapeUserPassword s = s := by
  have h' : ∀ c ∈ s.toList, shouldEscapeUserPassword c = false := by
    intro c hc
    have := h c hc
    fin_cases this <;> decide
  unfold escapeWith
  rw [escapeChars_id _ h']
  cases s
  rfl

/-! ## `Start` (postgrestest.go)

`Start` is a sequence of fallible steps (temp dir, random password, password
file, `initdb`, port allocation, config file, `pg_ctl start`, `sql.Open`)
followed by a readiness-polling loop. Each step's outcome is supplied by a
`StartEnv`; the observable result (which resources exist when `Start`
returns) is a `StartOutcome`. The two `defer`s in `Start` remove the
directory and close the client connection on every error return. -/

structure StartEnv where
  /-- `ioutil.TempDir("", "postgrestest")` succeeds. -/
  tempDirOk : Bool
  /-- `crypto/rand.Read` inside `randomString(16)` succeeds. -/
  randOk : Bool
  /-- `ioutil.WriteFile(pwFile, …)` succeeds. -/
  writePwOk : Bool
  /-- `runCommand("initdb", …)` succeeds. -/
  initdbOk : Bool
  /-- `findUnusedTCPPort()` succeeds. -/
  portOk : Bool
  /-- the port returned by `findUnusedTCPPort()`. -/
  port : Nat
  /-- writing `postgresql.conf` succeeds. -/
  writeConfOk : Bool
  /-- `command("pg_ctl", "start", …)` locates the tool. -/
  pgCtlFound : Bool
  /-- `proc.Start()` succeeds. -/
  procStartOk : Bool
  /-- `sql.Open("postgres", …)` succeeds. -/
  sqlOpenOk : Bool
  /-- number of polling-loop iterations that run before `ctx.Done()` is
  observed (the `select` checks cancellation first in every iteration). -/
  cancelAt : Nat
  /-- result of `srv.conn.PingContext(ctx)` at loop iteration `i`. -/
  ping : Nat → Bool
  /-- `len(logOutput) != 0` for the startup log read in the cancel branch. -/
  logNonEmpty : Bool
  /-- the `crypto/rand` byte stream used by `randomString`. -/
  rng : Nat → Nat

structure StartOutcome where
  ok : Bool
  /-- the temporary directory exists on disk when `Start` returns. -/
  dirExists : Bool
  /-- the `sql.DB` client handle is open when `Start` returns. -/
  connOpen : Bool
  /-- the `pg_ctl`-started daemon is running when `Start` returns. -/
  serverRunning : Bool
  /-- `findUnusedTCPPort` ran and a port was chosen for this directory. -/
  portChosen : Bool
  /-- `srv.stop()` was called. -/
  stopCalled : Bool
  /-- the returned error wraps `ctx.Err()`. -/
  errWrapsCtx : Bool
  /-- the returned error has the captured log contents appended. -/
  errHasLog : Bool
  baseURL : String
  deriving DecidableEq, Repr

/-- An error return of `Start`: the `defer`red `os.RemoveAll(dir)` has run
(no directory), and the connection (when it was opened) has been closed by
the second `defer`. -/
def startFail (portChosen stopCalled errWrapsCtx errHasLog : Bool) : StartOutcome :=
  { ok := false, dirExists := false, connOpen := false, serverRunning := false,
    portChosen := portChosen, stopCalled := stopCalled,
    errWrapsCtx := errWrapsCtx, errHasLog := errHasLog, baseURL := "" }

/-- The readiness-polling loop: every iteration first checks `ctx.Done()`
(which fires after `remaining` iterations) and otherwise pings; a successful
ping ends the loop. Returns whether a ping succeeded before cancellation. -/
def pollSucceeds (ping : Nat → Bool) : Nat → Nat → Bool
  | 0, _ => false
  | remaining + 1, i => if ping i then true else pollSucceeds ping remaining (i + 1)

/-- A successful return of `Start`: the directory, the open connection and
the running daemon are handed to the caller, with the base URL built from
the generated password and the allocated port. -/
def startSuccess (url : String) : StartOutcome :=
  { ok := true, dirExists := true, connOpen := true, serverRunning := true,
    portChosen := true, stopCalled := false, errWrapsCtx := false,
    errHasLog := false, baseURL := url }

/-- `Start` from postgrestest.go as a function of its environment. -/
def StartModel (env : StartEnv) : StartOutcome :=
  if !env.tempDirOk then startFail false false false false
  else if !env.randOk then startFail false false false false
  else if !env.writePwOk then startFail false false false false
  else if !env.initdbOk then startFail false false false false
  else if !env.portOk then startFail false false false false
  else if !env.writeConfOk then startFail true false false false
  else if !env.pgCtlFound then startFail true false false false
  else if !env.procStartOk then startFail true false false false
  else if !env.sqlOpenOk then startFail true true false false
  else if pollSucceeds env.ping env.cancelAt 0 then
    startSuccess (baseURL (randomString 16 env.rng) env.port)
  else
    startFail true true true env.logNonEmpty

/-- `(*Server).CreateDatabase`: generate `randomString(16)` as the name,
execute the CREATE DATABASE statement (outcome `execOk`), return
`srv.dsn(dbName)`. -/
def CreateDatabase (pw : String) (port : Nat) (rng : Nat → Nat)
    (randOk execOk : Bool) : Option String :=
  if !randOk then none
  else if !execOk then none
  else some (dsn pw port (randomString 16 rng))

/-- The SQL text `"CREATE DATABASE \"" + dbName + "\";"` built by
`CreateDatabase`. -/
def createDatabaseSQL (rng : Nat → Nat) : String :=
  "CREATE DATABASE \"" ++ randomString 16 rng ++ "\";"

theorem pollSucceeds_eq_false (ping : Nat → Bool) :
    ∀ (remaining i : Nat), (∀ j, j < i + remaining → ping j = false) →
      pollSucceeds ping remaining i = false := by
  intro remaining
  induction remaining with
  | zero => intro i _; rfl
  | succ r ih =>
      intro i h
      have hi : ping i = false := h i (by omega)
      simp only [pollSucceeds, hi, if_neg]
      exact ih (i + 1) fun j hj => h j (by omega)

/-! ## `Cleanup` and `stop` (postgrestest.go) -/

inductive CleanupEv
  | closeConn | pgCtlStop | waitExited | removeAll
  deriving DecidableEq, Repr

/-- Event trace of `(*Server).stop`: run
`pg_ctl stop --mode=immediate --wait`, then block receiving on
`srv.exited`, the channel the watcher goroutine closes once `proc.Wait`
returns. -/
def stopTrace : List CleanupEv := [.pgCtlStop, .waitExited]

/-- Event trace of `(*Server).Cleanup`: close `srv.conn` when it is non-nil,
call `srv.stop()`, then `os.RemoveAll(srv.dir)`. -/
def cleanupTrace (connSet : Bool) : List CleanupEv :=
  (if connSet then [CleanupEv.closeConn] else []) ++ stopTrace ++ [CleanupEv.removeAll]

structure SrvState where
  connOpen : Bool
  serverRunning : Bool
  dirExists : Bool
  exitedFired : Bool
  deriving DecidableEq, Repr

/-- Effect of `stop` on the server state: the daemon is down and the
`exited` signal has fired by the time `stop` returns. -/
def stopModel (s : SrvState) : SrvState :=
  { s with serverRunning := false, exitedFired := true }

/-- Effect of `Cleanup` on the server state. -/
def cleanupModel (s : SrvState) : SrvState :=
  let s1 := if s.connOpen then { s with connOpen := false } else s
  let s2 := stopModel s1
  { s2 with dirExists := false }

/-! ## The prewarm cache (package `postgresamortize`)

`createDatabase`, `pgtmp`, `background` and `Main`. Candidate directories
are represented by their directory path (`filepath.Dir` of the matched
marker path). -/

structure PreparedDir where
  initialized : Bool
  /-- the server `postgrestest.Start` launched is still running. -/
  serverRunning : Bool
  /-- a port was allocated for this directory. -/
  portChosen : Bool
  /-- the `NEW` marker file is present. -/
  markerPresent : Bool
  deriving DecidableEq, Repr

/-- `createDatabase(forOthers)`: call `postgrestest.Start(ctx)`; on success,
when `forOthers`, write the empty `NEW` marker file into `srv.Dir`; return
the directory. Nothing on this path stops the server `Start` launched. -/
def createDatabaseModel (forOthers : Bool) (env : StartEnv)
    (writeMarkerOk : Bool) : Option PreparedDir :=
  let out := StartModel env
  if !out.ok then none
  else if forOthers && !writeMarkerOk then none
  else some { initialized := true, serverRunning := out.serverRunning,
              portChosen := out.portChosen, markerPresent := forOthers }

/-- Result of one `os.Remove(match)` call. -/
inductive RemoveResult
  | removed | notExist | otherErr
  deriving DecidableEq, Repr

/-- The marker-claim loop of `pgtmp`: a successful `os.Remove` claims the
candidate's directory and breaks out of the scan; `os.IsNotExist` means a
competitor won the race and the loop continues; any other error aborts with
`could not grab prepared database`. `.ok none` means the scan fell through
with no claim. -/
def claimLoop : List (String × RemoveResult) → Except Unit (Option String)
  | [] => .ok none
  | (d, r) :: rest =>
    match r with
    | .removed => .ok (some d)
    | .notExist => claimLoop rest
    | .otherErr => .error ()

/-- Outcome of one acquisition attempt with respect to the pool. -/
inductive AttemptOutcome
  | claimed | fresh | raceError
  deriving DecidableEq, Repr

/-- One attempt's claim scan over a pool holding exactly one candidate: its
single atomic `os.Remove` succeeds exactly when the marker is still present
and reports not-exist when a competitor already removed it. A fall-through
scan means the attempt creates a fresh directory. -/
def attemptOutcome (markerPresent : Bool) : AttemptOutcome :=
  match claimLoop [("pool", if markerPresent then .removed else .notExist)] with
  | .ok (some _) => .claimed
  | .ok none => .fresh
  | .error _ => .raceError

/-- `n` competing attempts against a pool with one marker. Each attempt
performs exactly one atomic remove, so every interleaving is equivalent to
some sequential order of the attempts; after any attempt has run the marker
is gone (the attempt either removed it or found it already gone), hence the
recursive call proceeds with the marker absent. -/
def runAttempts : Bool → Nat → List AttemptOutcome
  | _, 0 => []
  | present, n + 1 => attemptOutcome present :: runAttempts false n

inductive PgEv
  | freshCreate
  | resume (dir : String)
  | relayInvoke (arg : String) (dir : String)
  | createDb
  deriving DecidableEq, Repr

structure PgtmpEnv where
  /-- glob results (directory, outcome of removing its marker). -/
  candidates : List (String × RemoveResult)
  /-- directory made by `createDatabase(false)` on the fall-through path. -/
  freshDir : String
  /-- `createDatabase(false)` succeeds. -/
  createOk : Bool
  /-- `postgrestest.Resume` succeeds. -/
  resumeOk : Bool
  /-- `background("-prepare=0", srv.Dir)` succeeds. -/
  backgroundOk : Bool
  /-- `srv.CreateDatabase` succeeds. -/
  createDbOk : Bool
  /-- the data source name `srv.CreateDatabase` returns. -/
  dsn : String

/-- The tail of `pgtmp` after a directory is in hand: `Resume` it, invoke
`background("-prepare=0", srv.Dir)`, then `srv.CreateDatabase`, returning
its address. -/
def pgtmpAfterDir (env : PgtmpEnv) (dir : String) (tr : List PgEv) :
    Except String String × List PgEv :=
  if !env.resumeOk then (.error "resume", tr ++ [.resume dir])
  else if !env.backgroundOk then
    (.error "background", tr ++ [.resume dir, .relayInvoke "-prepare=0" dir])
  else if !env.createDbOk then
    (.error "create database",
      tr ++ [.resume dir, .relayInvoke "-prepare=0" dir, .createDb])
  else (.ok env.dsn, tr ++ [.resume dir, .relayInvoke "-prepare=0" dir, .createDb])

/-- `pgtmp`: scan and claim a prepared directory; when none was claimed,
create a fresh one with `createDatabase(false)`; then resume, trigger
replenishment, and create the test database. -/
def pgtmpModel (env : PgtmpEnv) : Except String String × List PgEv :=
  match claimLoop env.candidates with
  | .error _ => (.error "could not grab prepared database", [])
  | .ok (some d) => pgtmpAfterDir env d []
  | .ok none =>
    if !env.createOk then (.error "createDatabase", [PgEv.freshCreate])
    else pgtmpAfterDir env env.freshDir [PgEv.freshCreate]

inductive MainAct
  /-- `exec.Command(os.Args[0], args…)` started with `child.Start()` and not
  waited for. -/
  | spawnNoWait (args : List String)
  /-- the `initdb` part of `createDatabase(true)`. -/
  | initializeDir
  /-- the `pg_ctl start` part of `createDatabase(true)`. -/
  | launchServer
  /-- writing the `NEW` marker file. -/
  | writeMarker
  /-- `os.Exit(0)`. -/
  | exitZero
  | runPgtmp
  | usageError
  deriving DecidableEq, Repr

/-- `Main` from the postgresamortize package: with `-prepare=0` it spawns a
grandchild re-running the executable with `-prepare=1` and the same
positional arguments via `child.Start()` (no wait) and exits; with
`-prepare=n`, `n ≥ 1`, it runs `createDatabase(true)` (initialize, launch,
write the marker) and exits; with the default `-prepare=-1` it runs
`pgtmp`. -/
def MainModel (prepare : Int) (args : List String) : List MainAct :=
  if prepare > -1 then
    if args = [] then [.usageError]
    else if prepare = 0 then [.spawnNoWait ("-prepare=1" :: args), .exitZero]
    else [.initializeDir, .launchServer, .writeMarker, .exitZero]
  else [.runPgtmp]

/-! ## Tool lookup (`command`, `findPostgresBin`, `runCommand`) -/

/-- Go `strconv.ParseInt(s, 10, 0)`: optional sign, then a non-empty digit
string, within the 64-bit signed range (bit size 0 means the platform int
size, 64 here). -/
def parseIntGo (s : String) : Option Int :=
  match s.toList with
  | [] => none
  | c :: rest =>
    let signDigits : Bool × List Char :=
      if c = '-' then (true, rest)
      else if c = '+' then (false, rest)
      else (false, c :: rest)
    if signDigits.2.isEmpty then none
    else if !signDigits.2.all (fun d => 48 ≤ d.toNat && d.toNat ≤ 57) then none
    else
      let v : Nat := signDigits.2.foldl (fun a d => a * 10 + (d.toNat - 48)) 0
      if signDigits.1 then
        if v ≤ 2 ^ 63 then some (-(v : Int)) else none
      else if v < 2 ^ 63 then some (v : Int) else none

/-- The `maxVersion` update of `findPostgresBin`: skip entries that do not
parse or parse to a value `≤ 0`, keep the larger of the rest. -/
def versionStep (mx : Int) (name : String) : Int :=
  match parseIntGo name with
  | none => mx
  | some v => if v ≤ 0 then mx else if v > mx then v else mx

/-- `findPostgresBin` (non-Windows): read `/usr/lib/postgresql` (`none`
models a `ReadDir` error, leaving the bin dir empty); fold the version step
over the listing starting from `-1`; when nothing qualified the bin dir
stays empty, otherwise it is `/usr/lib/postgresql/<maxVersion>/bin`. -/
def findPostgresBinModel (listing : Option (List String)) : String :=
  match listing with
  | none => ""
  | some ents =>
    let maxVersion := ents.foldl versionStep (-1 : Int)
    if maxVersion < 0 then ""
    else "/usr/lib/postgresql/" ++ maxVersion.toNat.repr ++ "/bin"

structure ToolEnv where
  /-- `exec.LookPath`: `some p` is success, `none` the lookup error. -/
  lookPath : String → Option String
  /-- listing of `/usr/lib/postgresql` (`none` = `ReadDir` error). -/
  listing : Option (List String)
  /-- `os.Stat` success for a path. -/
  fileExists : String → Bool
  /-- exit code of running the tool at a path. -/
  exitCode : String → Nat

inductive CmdResult
  | cmd (path : String)
  /-- the original `exec.LookPath` error is returned. -/
  | lookErr
  deriving DecidableEq, Repr

/-- `command(name, …)` (non-Windows): try `exec.LookPath` first; on failure
resolve the well-known installation directory and use `<dir>/<name>` if
that file exists; in every other case return the original LookPath
error. -/
def commandModel (env : ToolEnv) (name : String) : CmdResult :=
  match env.lookPath name with
  | some p => .cmd p
  | none =>
    let bin := findPostgresBinModel env.listing
    if bin = "" then .lookErr
    else if env.fileExists (bin ++ "/" ++ name) then .cmd (bin ++ "/" ++ name)
    else .lookErr

/-- `runCommand`: a `command` failure or a non-zero exit status of the tool
fails the invoking operation. -/
def runCommandModel (env : ToolEnv) (name : String) : Except String Unit :=
  match commandModel env name with
  | .lookErr => .error "look path"
  | .cmd p => if env.exitCode p = 0 then .ok () else .error "exit status"

/-! ## Shape of the CREATE DATABASE statement -/

/-- Split a character list at its first `'"'`: the part before it and the
remainder after it. -/
def spanToQuote : List Char → Option (List Char × List Char)
  | [] => none
  | c :: rest =>
    if c = '"' then some ([], rest)
    else match spanToQuote rest with
      | none => none
      | some (a, b) => some (c :: a, b)

/-- Recognize a string of the exact shape `CREATE DATABASE "<name>";` with
quote-free `<name>`, returning the name: the statement text is one
well-formed CREATE DATABASE statement for exactly that name. -/
def parseCreateDb (s : String) : Option String :=
  let pre := ("CREATE DATABASE \"").toList
  let cs := s.toList
  if cs.take pre.length = pre then
    match spanToQuote (cs.drop pre.length) with
    | some (ident, rest) => if rest = [';'] then some ⟨ident⟩ else none
    | none => none
  else none

/-! ## Shared lemmas and concrete environments -/

/-- Every run of `Start` either fails (some `startFail` result: directory
removed, connection closed, daemon down) or succeeds with the full success
record. -/
theorem StartModel_shape (env : StartEnv) :
    (∃ pc st wc lg, StartModel env = startFail pc st wc lg) ∨
      StartModel env = startSuccess (baseURL (randomString 16 env.rng) env.port) := by
  unfold StartModel
  cases h1 : env.tempDirOk
  · exact Or.inl ⟨_, _, _, _, rfl⟩
  · 
    cases h2 : env.randOk
    · exact Or.inl ⟨_, _, _, _, rfl⟩
    · 
      cases h3 : env.writePwOk
      · exact Or.inl ⟨_, _, _, _, rfl⟩
      · 
        cases h4 : env.initdbOk
        · exact Or.inl ⟨_, _, _, _, rfl⟩
        · 
          cases h5 : env.portOk
          · exact Or.inl ⟨_, _, _, _, rfl⟩
          · 
            cases h6 : env.writeConfOk
            · exact Or.inl ⟨_, _, _, _, rfl⟩
            · 
              cases h7 : env.pgCtlFound
              · exact Or.inl ⟨_, _, _, _, rfl⟩
              · 
                cases h8 : env.procStartOk
                · exact Or.inl ⟨_, _, _, _, rfl⟩
                · 
                  cases h9 : env.sqlOpenOk
                  · exact Or.inl ⟨_, _, _, _, rfl⟩
                  · 
                    cases h10 : pollSucceeds env.ping env.cancelAt 0
                    · exact Or.inl ⟨_, _, _, _, rfl⟩
                    · exact Or.inr rfl

/-- With every setup step succeeding, `Start` reaches the polling loop; when
the loop is cancelled before a successful ping, `Start` takes the
cancellation branch: `srv.stop()` plus both `defer`s, an error wrapping
`ctx.Err()`, with the log appended exactly when it is non-empty. -/
theorem StartModel_cancel (env : StartEnv)
    (h1 : env.tempDirOk = true) (h2 : env.randOk = true)
    (h3 : env.writePwOk = true) (h4 : env.initdbOk = true)
    (h5 : env.portOk = true) (h6 : env.writeConfOk = true)
    (h7 : env.pgCtlFound = true) (h8 : env.procStartOk = true)
    (h9 : env.sqlOpenOk = true)
    (hpoll : pollSucceeds env.ping env.cancelAt 0 = false) :
    StartModel env = startFail true true true env.logNonEmpty := by
  unfold StartModel
  rw [h1, h2, h3, h4, h5, h6, h7, h8, h9, hpoll]
  rfl

/-- With every setup step succeeding and a ping succeeding before
cancellation, `Start` succeeds. -/
theorem StartModel_success (env : StartEnv)
    (h1 : env.tempDirOk = true) (h2 : env.randOk = true)
    (h3 : env.writePwOk = true) (h4 : env.initdbOk = true)
    (h5 : env.portOk = true) (h6 : env.writeConfOk = true)
    (h7 : env.pgCtlFound = true) (h8 : env.procStartOk = true)
    (h9 : env.sqlOpenOk = true)
    (hpoll : pollSucceeds env.ping env.cancelAt 0 = true) :
    StartModel env = startSuccess (baseURL (randomString 16 env.rng) env.port) := by
  unfold StartModel
  rw [h1, h2, h3, h4, h5, h6, h7, h8, h9, hpoll]
  rfl

theorem runAttempts_false (n : Nat) :
    runAttempts false n = List.replicate n .fresh := by
  induction n with
  | zero => rfl
  | succ k ih => simp [runAttempts, ih, attemptOutcome, claimLoop, List.replicate]

theorem randomString_mem (n : Nat) (rng : Nat → Nat) :
    ∀ c ∈ (randomString n rng).toList, c ∈ base64urlAlphabet := by
  intro c hc
  exact encodeGroups_mem _ c hc

theorem spanToQuote_append (tail : List Char) :
    ∀ (name : List Char), '"' ∉ name →
      spanToQuote (name ++ '"' :: tail) = some (name, tail) := by
  intro name
  induction name with
  | nil => intro _; simp [spanToQuote]
  | cons c rest ih =>
      intro h
      have hc : ¬(c = '"') := fun hc => h (hc ▸ List.mem_cons_self _ _)
      have hrest : '"' ∉ rest := fun hr => h (List.mem_cons_of_mem _ hr)
      simp [spanToQuote, hc, ih hrest]

theorem parseCreateDb_quotefree (name : String) (h : '"' ∉ name.toList) :
    parseCreateDb ("CREATE DATABASE \"" ++ name ++ "\";") = some name := by
  have hdata : ("CREATE DATABASE \"" ++ name ++ "\";").toList
      = ("CREATE DATABASE \"").toList ++ (name.toList ++ ['"', ';']) := by
    show (_ : String).data = _
    simp [String.data_append]
  simp only [parseCreateDb, hdata, List.take_left, if_pos rfl]
  rw [List.drop_left]
  have := spanToQuote_append [';'] name.toList h
  simp only [List.cons_append, List.nil_append] at this ⊢
  rw [this]
  simp only [if_pos rfl]
  cases name
  rfl

/-- An environment in which every step of `Start` succeeds and the first
readiness ping succeeds. -/
def goodStartEnv : StartEnv :=
  { tempDirOk := true, randOk := true, writePwOk := true, initdbOk := true,
    portOk := true, port := 5433, writeConfOk := true, pgCtlFound := true,
    procStartOk := true, sqlOpenOk := true, cancelAt := 1,
    ping := fun _ => true, logNonEmpty := false, rng := fun _ => 0 }

/-- `goodStartEnv` with a failing `initdb`. -/
def failStartEnv : StartEnv := { goodStartEnv with initdbOk := false }

/-! ## Claim C1 -/

/-- C1: In the `pgtmp` claim loop, a successful marker deletion claims the
directory and stops the scan; a not-exist failure silently continues to the
next candidate; any other deletion error aborts the acquisition. With a
pool holding exactly one marker and `n ≥ 1` competing attempts, exactly one
attempt claims it, the other `n − 1` fall back to fresh creation, and no
attempt errors out because of the race. -/
theorem claim_loop_race (n : Nat) (hn : 1 ≤ n) :
    (∀ (d : String) (rest : List (String × RemoveResult)),
        claimLoop ((d, .removed) :: rest) = .ok (some d)) ∧
    (∀ (d : String) (rest : List (String × RemoveResult)),
        claimLoop ((d, .notExist) :: rest) = claimLoop rest) ∧
    (∀ (d : String) (rest : List (String × RemoveResult)),
        claimLoop ((d, .otherErr) :: rest) = .error ()) ∧
    (runAttempts true n).count .claimed = 1 ∧
    (runAttempts true n).count .fresh = n - 1 ∧
    (runAttempts true n).count .raceError = 0 := by
  obtain ⟨m, rfl⟩ : ∃ m, n = m + 1 := ⟨n - 1, by omega⟩
  refine ⟨fun d rest => rfl, fun d rest => rfl, fun d rest => rfl, ?_, ?_, ?_⟩ <;>
    simp [runAttempts, runAttempts_false, attemptOutcome, claimLoop,
      List.count_replicate, List.count_cons]

theorem claim_loop_race_witness :
    (runAttempts true 3).count .claimed = 1 ∧
    (runAttempts true 3).count .fresh = 2 ∧
    (runAttempts true 3).count .raceError = 0 := by
  have h := claim_loop_race 3 (by norm_num)
  exact ⟨h.2.2.2.1, h.2.2.2.2.1, h.2.2.2.2.2⟩

/-! ## Claim C3 -/

/-- C3 counterexample: the string produced by `randomString(16)` has 16
characters, but its base64url-decoded form — the byte slice
`randomString` actually fills with random bytes — has
`DecodedLen(16) = 12` bytes, not 16. -/
theorem randomString_decoded_len_counterexample :
    (randomString 16 (fun _ => 0)).length = 16 ∧
    decodedLen (randomString 16 (fun _ => 0)).length = 12 ∧
    ((List.range (decodedLen 16)).map fun i => (fun _ : Nat => 0) i % 256).length ≠ 16 := by
  decide

/-- C3 (amended): the generated superuser password and every generated
database name come from `randomString(16)`: a cryptographically random,
base64url-encoded string of fixed length 16 characters whose decoded form
is `DecodedLen(16) = 12` random bytes (not 16). -/
theorem randomString16_format (rng : Nat → Nat) :
    (randomString 16 rng).length = 16 ∧
    decodedLen 16 = 12 ∧
    ((List.range (decodedLen 16)).map fun i => rng i % 256).length = 12 ∧
    ((randomString 16 rng).toList.all fun c =>
      decide (c ∈ base64urlAlphabet)) = true := by
  refine ⟨?_, by decide, by simp [decodedLen], ?_⟩
  · show (encodeGroups _).length = 16
    rw [encodeGroups_length]
    simp [decodedLen, encodedLen]
  · rw [List.all_eq_true]
    intro c hc
    simpa using randomString_mem 16 rng c hc

/-! ## Claim C8 -/

/-- C8: `Cleanup` closes the connection, then stops the daemon, then
recursively deletes the data directory, in that order; the directory
removal comes strictly after the blocking receive on the exit-watcher's
one-shot signal inside `stop`; and after `Cleanup` the directory is gone
and the exit notification has fired. -/
theorem cleanup_order :
    cleanupTrace true = [.closeConn, .pgCtlStop, .waitExited, .removeAll] ∧
    (∀ connSet, (cleanupTrace connSet).indexOf .waitExited <
      (cleanupTrace connSet).indexOf .removeAll) ∧
    ∀ s : SrvState, (cleanupModel s).dirExists = false ∧
      (cleanupModel s).exitedFired = true ∧
      (cleanupModel s).connOpen = false ∧
      (cleanupModel s).serverRunning = false := by
  refine ⟨rfl, ?_, ?_⟩
  · intro connSet; cases connSet <;> decide
  · intro s
    rcases s with ⟨c, r, d, e⟩
    cases c <;> simp [cleanupModel, stopModel]

/-! ## Claim C9 -/

/-- C9: on every error return of `Start`, the temporary directory has been
recursively removed and the client connection (when it was opened) has been
closed, so a failed `Start` leaves no directory on disk and no open handle;
the daemon is not left running either. -/
theorem start_error_atomicity (env : StartEnv)
    (h : (StartModel env).ok = false) :
    (StartModel env).dirExists = false ∧ (StartModel env).connOpen = false ∧
    (StartModel env).serverRunning = false := by
  rcases StartModel_shape env with ⟨pc, st, wc, lg, heq⟩ | heq
  · rw [heq]; exact ⟨rfl, rfl, rfl⟩
  · rw [heq] at h; exact Bool.noConfusion h

theorem start_error_atomicity_witness :
    (StartModel failStartEnv).ok = false ∧
    (StartModel failStartEnv).dirExists = false ∧
    (StartModel failStartEnv).connOpen = false ∧
    (StartModel failStartEnv).serverRunning = false := by
  have h := start_error_atomicity failStartEnv (by decide)
  exact ⟨by decide, h.1, h.2.1, h.2.2⟩

/-! ## Claim C10 -/

/-- C10: every database name generated by `CreateDatabase` consists solely
of unpadded base64url characters — in particular it contains no
double-quote, backslash, or semicolon — and the SQL text
`CREATE DATABASE "<name>";` built from it parses back as a single
well-formed CREATE DATABASE statement for exactly that name. -/
theorem create_database_injection_free (rng : Nat → Nat) :
    ((randomString 16 rng).toList.all fun c =>
      decide (c ∈ base64urlAlphabet) && (c != '"') && (c != '\\') && (c != ';')) = true ∧
    parseCreateDb (createDatabaseSQL rng) = some (randomString 16 rng) := by
  have hmem := randomString_mem 16 rng
  have halpha : ∀ c ∈ base64urlAlphabet,
      (decide (c ∈ base64urlAlphabet) && (c != '"') && (c != '\\') && (c != ';')) = true := by
    decide
  constructor
  · rw [List.all_eq_true]
    intro c hc
    exact halpha c (hmem c hc)
  · refine parseCreateDb_quotefree (randomString 16 rng) ?_
    intro hq
    have := halpha _ (hmem _ hq)
    simp at this

/-! ## Claim C2 -/

/-- C2 counterexample: `createDatabase(true)` calls `postgrestest.Start`,
which allocates a port, launches the daemon and waits for a successful
ping, and nothing on the preparation path stops that server before the
`NEW` marker is written; so a marker-carrying pooled directory carries a
running server and a bound port, refuting "initialized but not yet
launched / no running process, no port while idle". -/
theorem prepared_dir_counterexample :
    ¬ (∀ (env : StartEnv) (wm : Bool) (d : PreparedDir),
        createDatabaseModel true env wm = some d →
        d.serverRunning = false ∧ d.portChosen = false) := by
  intro h
  have := h goodStartEnv true
    { initialized := true, serverRunning := true, portChosen := true,
      markerPresent := true } (by decide)
  exact absurd this.1 (by decide)

/-- C2 (amended): every pooled (marker-carrying) directory prepared by
`createDatabase(true)` is initialized and fully launched, not dormant: its
port is chosen during preparation by `Start` (not deferred to `Resume`),
the server daemon is left running in it, and the marker is present. -/
theorem prepared_dir_fully_launched (env : StartEnv) (wm : Bool)
    (d : PreparedDir) (h : createDatabaseModel true env wm = some d) :
    d.initialized = true ∧ d.serverRunning = true ∧ d.portChosen = true ∧
      d.markerPresent = true := by
  rcases StartModel_shape env with ⟨pc, st, wc, lg, heq⟩ | heq <;>
    cases wm <;>
      simp [createDatabaseModel, heq, startFail, startSuccess] at h
  rw [← h]
  exact ⟨rfl, rfl, rfl, rfl⟩

theorem prepared_dir_fully_launched_witness :
    ({ initialized := true, serverRunning := true, portChosen := true,
       markerPresent := true } : PreparedDir).initialized = true ∧
    ({ initialized := true, serverRunning := true, portChosen := true,
       markerPresent := true } : PreparedDir).serverRunning = true ∧
    ({ initialized := true, serverRunning := true, portChosen := true,
       markerPresent := true } : PreparedDir).portChosen = true ∧
    ({ initialized := true, serverRunning := true, portChosen := true,
       markerPresent := true } : PreparedDir).markerPresent = true :=
  prepared_dir_fully_launched goodStartEnv true _ (by decide)

/-! ## Claim C4 -/

/-- C4: if the caller's context is cancelled before the readiness-polling
loop in `Start` gets a successful ping, `Start` stops the server and
returns an error that wraps the context's error, carrying the captured log
contents exactly when the log file is non-empty. -/
theorem start_cancellation (env : StartEnv)
    (hsetup : env.tempDirOk = true ∧ env.randOk = true ∧ env.writePwOk = true ∧
      env.initdbOk = true ∧ env.portOk = true ∧ env.writeConfOk = true ∧
      env.pgCtlFound = true ∧ env.procStartOk = true ∧ env.sqlOpenOk = true)
    (hping : ∀ i, i < env.cancelAt → env.ping i = false) :
    (StartModel env).ok = false ∧ (StartModel env).stopCalled = true ∧
    (StartModel env).serverRunning = false ∧
    (StartModel env).errWrapsCtx = true ∧
    (StartModel env).errHasLog = env.logNonEmpty := by
  obtain ⟨h1, h2, h3, h4, h5, h6, h7, h8, h9⟩ := hsetup
  have hpoll : pollSucceeds env.ping env.cancelAt 0 = false :=
    pollSucceeds_eq_false env.ping env.cancelAt 0 fun j hj => hping j (by omega)
  rw [StartModel_cancel env h1 h2 h3 h4 h5 h6 h7 h8 h9 hpoll]
  exact ⟨rfl, rfl, rfl, rfl, rfl⟩

/-- `goodStartEnv` but no ping ever succeeds, cancellation fires after two
loop iterations, and the captured log is non-empty. -/
def cancelStartEnv : StartEnv :=
  { goodStartEnv with ping := fun _ => false, cancelAt := 2, logNonEmpty := true }

theorem start_cancellation_witness :
    (StartModel cancelStartEnv).ok = false ∧
    (StartModel cancelStartEnv).stopCalled = true ∧
    (StartModel cancelStartEnv).serverRunning = false ∧
    (StartModel cancelStartEnv).errWrapsCtx = true ∧
    (StartModel cancelStartEnv).errHasLog = cancelStartEnv.logNonEmpty :=
  start_cancellation cancelStartEnv
    ⟨rfl, rfl, rfl, rfl, rfl, rfl, rfl, rfl, rfl⟩
    (fun _ _ => rfl)

/-! ## Claim C5 -/

theorem pgtmpAfterDir_ok (env : PgtmpEnv) (dir : String) (tr0 : List PgEv)
    (adr : String) (tr : List PgEv)
    (h : pgtmpAfterDir env dir tr0 = (.ok adr, tr)) :
    tr = tr0 ++ [.resume dir, .relayInvoke "-prepare=0" dir, .createDb] := by
  unfold pgtmpAfterDir at h
  split_ifs at h <;> simp at h
  exact h.2.symm

/-- C5: on every successful acquisition — pooled claim or synchronous fresh
creation — `pgtmp` triggers replenishment before the address is produced,
by re-invoking the current executable with `-prepare=0`; `Main` under
`-prepare=0` spawns the grandchild with `-prepare=1` and the same
positional arguments without waiting for it and exits; and the grandchild
(`-prepare=1`) initializes a directory, launches it, and writes the marker
file before terminating. -/
theorem replenishment_relay :
    (∀ (env : PgtmpEnv) (adr : String) (tr : List PgEv),
        pgtmpModel env = (.ok adr, tr) →
        ∃ pre d, tr = pre ++ [.resume d, .relayInvoke "-prepare=0" d, .createDb]) ∧
    (∀ args : List String, args ≠ [] →
        MainModel 0 args = [.spawnNoWait ("-prepare=1" :: args), .exitZero]) ∧
    (∀ (p : Int) (args : List String), 1 ≤ p → args ≠ [] →
        MainModel p args = [.initializeDir, .launchServer, .writeMarker, .exitZero]) := by
  refine ⟨?_, ?_, ?_⟩
  · intro env adr tr h
    unfold pgtmpModel at h
    cases hcl : claimLoop env.candidates with
    | error e => rw [hcl] at h; simp at h
    | ok res =>
      rw [hcl] at h
      cases res with
      | some d => exact ⟨[], d, pgtmpAfterDir_ok env d [] adr tr h⟩
      | none =>
        cases hcr : env.createOk
        · simp [hcr] at h
        · simp only [hcr, Bool.not_true, Bool.false_eq_true, if_false] at h
          exact ⟨[.freshCreate], env.freshDir,
            pgtmpAfterDir_ok env env.freshDir _ adr tr h⟩
  · intro args hargs
    unfold MainModel
    rw [if_pos (by norm_num), if_neg hargs, if_pos rfl]
  · intro p args hp hargs
    unfold MainModel
    rw [if_pos (by omega), if_neg hargs, if_neg (by omega)]

/-- A concrete prewarm environment: the first candidate was lost to a
competitor, the second is claimed. -/
def pgtmpEnvW : PgtmpEnv :=
  { candidates := [("dirA", .notExist), ("dirB", .removed)], freshDir := "fresh",
    createOk := true, resumeOk := true, backgroundOk := true,
    createDbOk := true, dsn := "dsnW" }

theorem replenishment_relay_witness :
    (∃ pre d, [PgEv.resume "dirB", .relayInvoke "-prepare=0" "dirB", .createDb]
        = pre ++ [.resume d, .relayInvoke "-prepare=0" d, .createDb]) ∧
    MainModel 0 ["dirB"] = [.spawnNoWait ["-prepare=1", "dirB"], .exitZero] ∧
    MainModel 1 ["dirB"] = [.initializeDir, .launchServer, .writeMarker, .exitZero] :=
  ⟨replenishment_relay.1 pgtmpEnvW "dsnW"
      [.resume "dirB", .relayInvoke "-prepare=0" "dirB", .createDb] rfl,
   replenishment_relay.2.1 ["dirB"] (by decide),
   replenishment_relay.2.2 1 ["dirB"] (by norm_num) (by decide)⟩

/-! ## Claim C6 -/

theorem versionStep_le (mx : Int) (name : String) : mx ≤ versionStep mx name := by
  unfold versionStep
  cases parseIntGo name with
  | none => exact le_refl _
  | some v =>
      dsimp only
      split
      · exact le_refl _
      · split <;> omega

theorem versionStep_cases (a : Int) (e : String) :
    versionStep a e = a ∨
      ∃ v, parseIntGo e = some v ∧ 0 < v ∧ versionStep a e = v := by
  unfold versionStep
  cases hpe : parseIntGo e with
  | none => exact Or.inl rfl
  | some v =>
      dsimp only
      split
      · exact Or.inl rfl
      · split
        · exact Or.inr ⟨v, rfl, by omega, rfl⟩
        · exact Or.inl rfl

theorem foldl_versionStep_le (ents : List String) :
    ∀ a : Int, a ≤ ents.foldl versionStep a := by
  induction ents with
  | nil => intro a; exact le_refl a
  | cons e rest ih =>
      intro a
      exact le_trans (versionStep_le a e) (ih (versionStep a e))

theorem foldl_versionStep_ge (ents : List String) :
    ∀ (a : Int) (name : String), name ∈ ents →
      ∀ v, parseIntGo name = some v → 0 < v → v ≤ ents.foldl versionStep a := by
  induction ents with
  | nil => intro a name h; cases h
  | cons e rest ih =>
      intro a name hmem v hp hv
      rcases List.mem_cons.mp hmem with rfl | hmem
      · refine le_trans ?_ (foldl_versionStep_le rest (versionStep a name))
        unfold versionStep
        rw [hp]
        dsimp only
        split
        · omega
        · split <;> omega
      · exact ih (versionStep a e) name hmem v hp hv

theorem foldl_versionStep_result (ents : List String) :
    ∀ a : Int, ents.foldl versionStep a = a ∨
      ∃ name ∈ ents, ∃ v, parseIntGo name = some v ∧ 0 < v ∧
        ents.foldl versionStep a = v := by
  induction ents with
  | nil => intro a; exact Or.inl rfl
  | cons e rest ih =>
      intro a
      rw [List.foldl_cons]
      rcases ih (versionStep a e) with h | ⟨name, hm, v, hp, hv, hr⟩
      · rcases versionStep_cases a e with h2 | ⟨v, hp, hv, h2⟩
        · exact Or.inl (h.trans h2)
        · exact Or.inr ⟨e, List.mem_cons_self _ _, v, hp, hv, h.trans h2⟩
      · exact Or.inr ⟨name, List.mem_cons_of_mem _ hm, v, hp, hv, hr⟩

theorem findPostgresBin_max (ents : List String) (k : Nat)
    (hk : ∃ name ∈ ents, parseIntGo name = some (k : Int) ∧ 0 < (k : Int))
    (hmax : ∀ name ∈ ents, ∀ v : Int, parseIntGo name = some v → 0 < v →
      v ≤ (k : Int)) :
    findPostgresBinModel (some ents) =
      "/usr/lib/postgresql/" ++ k.repr ++ "/bin" := by
  obtain ⟨name, hm, hp, hv⟩ := hk
  have hge : (k : Int) ≤ ents.foldl versionStep (-1) :=
    foldl_versionStep_ge ents (-1) name hm _ hp hv
  have hle : ents.foldl versionStep (-1) ≤ (k : Int) := by
    rcases foldl_versionStep_result ents (-1) with h | ⟨n2, hm2, v2, hp2, hv2, hr2⟩
    · omega
    · rw [hr2]; exact hmax n2 hm2 v2 hp2 hv2
  have heq : ents.foldl versionStep (-1) = (k : Int) := le_antisymm hle hge
  unfold findPostgresBinModel
  dsimp only
  rw [heq, if_neg (by omega)]
  rw [Int.toNat_natCast]

/-- C6: locating an engine tool searches the process PATH first; only on
PATH failure does it consult `/usr/lib/postgresql`, selecting among
integer-named subdirectories with positive value the numerically highest
and using its `bin` subdirectory; if no such directory exists or the tool
file is absent there, the original PATH-lookup error is returned; and a
tool exiting non-zero fails the invoking operation. -/
theorem command_search_order :
    (∀ (env : ToolEnv) (name p : String), env.lookPath name = some p →
        commandModel env name = .cmd p) ∧
    (∀ (ents : List String) (k : Nat),
        (∃ name ∈ ents, parseIntGo name = some (k : Int) ∧ 0 < (k : Int)) →
        (∀ name ∈ ents, ∀ v : Int, parseIntGo name = some v → 0 < v →
          v ≤ (k : Int)) →
        findPostgresBinModel (some ents) =
          "/usr/lib/postgresql/" ++ k.repr ++ "/bin") ∧
    (∀ (env : ToolEnv) (name : String), env.lookPath name = none →
        findPostgresBinModel env.listing ≠ "" →
        env.fileExists (findPostgresBinModel env.listing ++ "/" ++ name) = true →
        commandModel env name = .cmd (findPostgresBinModel env.listing ++ "/" ++ name)) ∧
    (∀ (env : ToolEnv) (name : String), env.lookPath name = none →
        findPostgresBinModel env.listing = "" →
        commandModel env name = .lookErr) ∧
    (∀ (env : ToolEnv) (name : String), env.lookPath name = none →
        env.fileExists (findPostgresBinModel env.listing ++ "/" ++ name) = false →
        commandModel env name = .lookErr) ∧
    (∀ (env : ToolEnv) (name p : String), commandModel env name = .cmd p →
        env.exitCode p ≠ 0 → runCommandModel env name = .error "exit status") := by
  refine ⟨?_, ?_, ?_, ?_, ?_, ?_⟩
  · intro env name p h
    unfold commandModel
    rw [h]
  · intro ents k hk hmax
    exact findPostgresBin_max ents k hk hmax
  · intro env name hlook hbin hfile
    unfold commandModel
    rw [hlook]
    dsimp only
    rw [if_neg hbin, if_pos hfile]
  · intro env name hlook hbin
    unfold commandModel
    rw [hlook]
    dsimp only
    rw [if_pos hbin]
  · intro env name hlook hfile
    unfold commandModel
    rw [hlook]
    dsimp only
    split
    · rfl
    · rw [hfile]
      simp
  · intro env name p hcmd hexit
    unfold runCommandModel
    rw [hcmd]
    dsimp only
    rw [if_neg hexit]

/-- A concrete tool-lookup environment: nothing on PATH,
`/usr/lib/postgresql` holds `{"9", "12", "x", "-3"}`, every file exists,
every tool exits with status 1. -/
def toolEnvW : ToolEnv :=
  { lookPath := fun _ => none, listing := some ["9", "12", "x", "-3"],
    fileExists := fun _ => true, exitCode := fun _ => 1 }

theorem command_search_order_witness :
    findPostgresBinModel (some ["9", "12", "x", "-3"]) =
      "/usr/lib/postgresql/" ++ (12 : Nat).repr ++ "/bin" ∧
    runCommandModel toolEnvW "initdb" = .error "exit status" := by
  constructor
  · refine command_search_order.2.1 ["9", "12", "x", "-3"] 12
      ⟨"12", by decide, by decide, by decide⟩ ?_
    intro e he v hp hv
    fin_cases he
    · rw [show parseIntGo "9" = some (9 : Int) from by decide] at hp
      injection hp with h9
      omega
    · rw [show parseIntGo "12" = some (12 : Int) from by decide] at hp
      injection hp with h12
      omega
    · rw [show parseIntGo "x" = none from by decide] at hp
      exact Option.noConfusion hp
    · rw [show parseIntGo "-3" = some (-3 : Int) from by decide] at hp
      injection hp with hm3
      omega
  · refine command_search_order.2.2.2.2.2 toolEnvW "initdb"
      ("/usr/lib/postgresql/" ++ (12 : Nat).repr ++ "/bin" ++ "/" ++ "initdb") ?_ (by decide)
    refine command_search_order.2.2.1 toolEnvW "initdb" rfl ?_ rfl
    decide

/-! ## Claim C7 -/

theorem dsn_format (pw : String) (port : Nat) (dbName : String)
    (hpw : ∀ c ∈ pw.toList, c ∈ base64urlAlphabet) :
    dsn pw port dbName =
      "postgres://postgres:" ++ pw ++ "@localhost:" ++ Nat.repr port ++ "/" ++
        dbName ++ "?sslmode=disable" := by
  unfold dsn baseURL
  rw [escapeUserPassword_alphabet pw hpw, escapeHost_localhost,
    show escapeWith shouldEscapeUserPassword "postgres" = "postgres" from rfl,
    show ("postgres" ++ "://" ++ "postgres" ++ ":" : String) =
      "postgres://postgres:" from rfl,
    ← String.append_assoc _ "localhost:" (Nat.repr port),
    String.append_assoc ("postgres://postgres:" ++ pw) "@" "localhost:",
    show ("@" ++ "localhost:" : String) = "@localhost:" from rfl]

/-- C7: every connection address returned by `DefaultDatabase` or
`CreateDatabase` has the form
`postgres://<superuser>:<password>@localhost:<port>/<dbname>?sslmode=disable`:
engine scheme, embedded superuser credentials, loopback host, the
allocated port, the database name, and the directive disabling transport
encryption. -/
theorem connection_address_format (rngPw rngDb : Nat → Nat) (port : Nat) :
    DefaultDatabase (randomString 16 rngPw) port =
      "postgres://postgres:" ++ randomString 16 rngPw ++ "@localhost:" ++
        Nat.repr port ++ "/" ++ "postgres" ++ "?sslmode=disable" ∧
    CreateDatabase (randomString 16 rngPw) port rngDb true true =
      some ("postgres://postgres:" ++ randomString 16 rngPw ++ "@localhost:" ++
        Nat.repr port ++ "/" ++ randomString 16 rngDb ++ "?sslmode=disable") := by
  constructor
  · exact dsn_format _ port "postgres" (randomString_mem 16 rngPw)
  · show some (dsn (randomString 16 rngPw) port (randomString 16 rngDb)) = _
    rw [dsn_format _ port _ (randomString_mem 16 rngPw)]

end Postgrestest
